import Mathlib

/-! # openfarm-core-avr: file header, file and sensor scheduling

A shallow embedding of `core-avr-data/src/File.h` and
`core-avr-sensor/src/sensor_config.h`, together with the parts of the
repository that those headers only declare, and the properties of the header
codec, of `File::load` and `File::add`, of the `SensorManager` schedule, of
the test of the sensor manager and of the sensor configuration and its sizes.

Conventions
* a byte is a `Nat` below 256; a buffer is a `List Nat`;
* `int` is 32 bits wide and `short` 16 bits wide, both two's complement; a
  value of either type is an `Int` in the corresponding range;
* a member function that mutates its object returns the new object next to
  its C++ return value; a function that talks to the stream also returns the
  new stream state.
-/

namespace OpenFarm

/-! ## Converter unions -/

/-- Modelled from the spec: `IntUnion` of `Converter.h`, which is not part of
the sources at hand. A union of an `int intValue` and a `char charValue[4]`
over the same four bytes; the byte order is the little-endian order the spec
fixes for every multi-byte integer ("Endian-stable packing/unpacking of `i32`
... to/from 4- and 2-byte little-endian buffers"). The storage is the list of
its four bytes. -/
structure IntUnion where
  charValue : List Nat := [0, 0, 0, 0]
deriving DecidableEq

/-- Modelled from the spec: `ShortUnion` of `Converter.h`, a union of a
`short shortValue` and a `char charValue[2]` over the same two bytes, in
little-endian order. -/
structure ShortUnion where
  charValue : List Nat := [0, 0]
deriving DecidableEq

/-- The assignment `u.charValue[i] = c`: a `char` keeps the low eight bits. -/
def IntUnion.setChar (u : IntUnion) (i : Nat) (c : Nat) : IntUnion :=
  { charValue := u.charValue.set i (c % 256) }

/-- The read `u.intValue`: the four bytes as a little-endian two's-complement
32-bit integer. -/
def IntUnion.intValue (u : IntUnion) : Int :=
  let w : Nat := u.charValue.getD 0 0 + 256 * u.charValue.getD 1 0
    + 65536 * u.charValue.getD 2 0 + 16777216 * u.charValue.getD 3 0
  if w < 2147483648 then (w : Int) else (w : Int) - 4294967296

/-- The assignment `u.intValue = v`: the value modulo `2^32`, least significant
byte first. -/
def IntUnion.setIntValue (_u : IntUnion) (v : Int) : IntUnion :=
  let w : Nat := (v % 4294967296).toNat
  { charValue := [w % 256, w / 256 % 256, w / 65536 % 256, w / 16777216 % 256] }

/-- The assignment `u.charValue[i] = c` on a `ShortUnion`. -/
def ShortUnion.setChar (u : ShortUnion) (i : Nat) (c : Nat) : ShortUnion :=
  { charValue := u.charValue.set i (c % 256) }

/-- The read `u.shortValue`: the two bytes as a little-endian two's-complement
16-bit integer. -/
def ShortUnion.shortValue (u : ShortUnion) : Int :=
  let w : Nat := u.charValue.getD 0 0 + 256 * u.charValue.getD 1 0
  if w < 32768 then (w : Int) else (w : Int) - 65536

/-- The assignment `u.shortValue = v`: the value modulo `2^16`, least
significant byte first. -/
def ShortUnion.setShortValue (_u : ShortUnion) (v : Int) : ShortUnion :=
  let w : Nat := (v % 65536).toNat
  { charValue := [w % 256, w / 256 % 256] }

/-- The call `memcpy(buffer + pos, src, n)` on a buffer held as a list: the
first `n` bytes of `src` replace the bytes of `buffer` from index `pos` on. -/
def memcpy (buffer : List Nat) (pos : Nat) (src : List Nat) (n : Nat) : List Nat :=
  buffer.take pos ++ src.take n ++ buffer.drop (pos + n)

/-! ## The stream -/

/-- Modelled from the spec: `EEPROMStream` of `EEPROMStream.h`, which is not
part of the sources at hand. Only the two calls `File.h` makes are kept, with
the contract of the spec's Paged Stream: `read(dst, offset, len)` returns the
number of bytes actually read and leaves them in `dst`, `write(src, offset,
len)` returns `true` iff all bytes were accepted. The stream is a parameter of
everything below: `σ` is its state, `read st offset len` gives the returned
count with the contents of the destination buffer after the call, `write st
src offset len` gives the returned flag. -/
structure EEPROMStream (σ : Type) where
  read : σ → Int → Int → (Int × List Nat) × σ
  write : σ → List Nat → Int → Int → Bool × σ

/-- One call made to a stream. -/
inductive StreamCall where
  | read (offset : Int) (len : Int)
  | write (buffer : List Nat) (offset : Int) (len : Int)
deriving DecidableEq

/-- The stream `s` with a journal: every call is appended to the journal and
then handed to `s`. -/
def EEPROMStream.logged {σ : Type} (s : EEPROMStream σ) :
    EEPROMStream (σ × List StreamCall) where
  read := fun st offset len =>
    ((s.read st.1 offset len).1,
      ((s.read st.1 offset len).2, st.2 ++ [StreamCall.read offset len]))
  write := fun st buffer offset len =>
    ((s.write st.1 buffer offset len).1,
      ((s.write st.1 buffer offset len).2, st.2 ++ [StreamCall.write buffer offset len]))

/-- Modelled from the spec: a stream over a plain array of bytes that obeys
the Paged Stream contract: a write is accepted whole when its range lies in
the array and refused otherwise, a read returns the bytes stored in the range
and is short (nothing read) when the range leaves the array. -/
def memoryStream : EEPROMStream (List Nat) where
  read := fun mem offset len =>
    if 0 ≤ offset ∧ 0 ≤ len ∧ offset + len ≤ mem.length then
      ((len, (mem.drop offset.toNat).take len.toNat), mem)
    else ((0, []), mem)
  write := fun mem buffer offset len =>
    if 0 ≤ offset ∧ 0 ≤ len ∧ offset + len ≤ mem.length then
      (true, mem.take offset.toNat ++ (buffer.take len.toNat
        ++ mem.drop (offset.toNat + len.toNat)))
    else (false, mem)

/-! ## `File.h`: the header -/

/-- The macro `FILE_HEADER_SIZE`. -/
def FILE_HEADER_SIZE : Nat := 8

/-- The class `FileHeader`: `int version`, `short size` (number of bytes,
excluding the header) and `short numRecords`. -/
structure FileHeader where
  version : Int
  size : Int
  numRecords : Int
deriving DecidableEq

/-- The range of the fields: `version` is an `int`, `size` and `numRecords`
are `short`s. -/
def FileHeader.InRange (h : FileHeader) : Prop :=
  (-2147483648 ≤ h.version ∧ h.version ≤ 2147483647) ∧
  (-32768 ≤ h.size ∧ h.size ≤ 32767) ∧
  (-32768 ≤ h.numRecords ∧ h.numRecords ≤ 32767)

instance (h : FileHeader) : Decidable h.InRange := by
  unfold FileHeader.InRange; infer_instance

/-- The conversion of an `int` value to `short`, which takes place where an
`int` is passed for the parameter `const short size` of `File::init` or
assigned to the field `short size` of `FileHeader`: the value modulo `2^16`,
taken in the signed range. -/
def toShort (n : Int) : Int :=
  (n + 32768) % 65536 - 32768

/-- The method `FileHeader::read`: read `FILE_HEADER_SIZE` bytes at
`absoluteOffset`; when the stream reports another count return `false` with
the header untouched, otherwise decode `version` from bytes 0..3, `size` from
bytes 4..5, `numRecords` from bytes 6..7 and return `true`. -/
def FileHeader.read {σ : Type} (s : EEPROMStream σ) (st : σ) (h : FileHeader)
    (absoluteOffset : Int) : Bool × FileHeader × σ :=
  let r := s.read st absoluteOffset FILE_HEADER_SIZE
  let buffer : List Nat := r.1.2
  if (FILE_HEADER_SIZE : Int) ≠ r.1.1 then
    (false, h, r.2)
  else
    -- read in version
    let intConverter : IntUnion := {}
    let intConverter := intConverter.setChar 0 (buffer.getD 0 0)
    let intConverter := intConverter.setChar 1 (buffer.getD 1 0)
    let intConverter := intConverter.setChar 2 (buffer.getD 2 0)
    let intConverter := intConverter.setChar 3 (buffer.getD 3 0)
    let version := intConverter.intValue
    -- size
    let converter : ShortUnion := {}
    let converter := converter.setChar 0 (buffer.getD 4 0)
    let converter := converter.setChar 1 (buffer.getD 5 0)
    let size := converter.shortValue
    -- numrecords
    let converter := converter.setChar 0 (buffer.getD 6 0)
    let converter := converter.setChar 1 (buffer.getD 7 0)
    let numRecords := converter.shortValue
    (true, { version := version, size := size, numRecords := numRecords }, r.2)

/-- The buffer `FileHeader::write` prepares before it calls the stream. -/
def FileHeader.buffer (h : FileHeader) : List Nat :=
  let buffer : List Nat := List.replicate FILE_HEADER_SIZE 0
  let intConverter : IntUnion := {}
  let intConverter := intConverter.setIntValue h.version
  let buffer := memcpy buffer 0 intConverter.charValue 4
  let shortConverter : ShortUnion := {}
  let shortConverter := shortConverter.setShortValue h.size
  let buffer := memcpy buffer 4 shortConverter.charValue 2
  let shortConverter := shortConverter.setShortValue h.numRecords
  let buffer := memcpy buffer 6 shortConverter.charValue 2
  buffer

/-- The method `FileHeader::write`: prepare the buffer and return what
`stream->write(buffer, absoluteOffset, FILE_HEADER_SIZE)` returns. No field is
assigned. -/
def FileHeader.write {σ : Type} (s : EEPROMStream σ) (st : σ) (h : FileHeader)
    (absoluteOffset : Int) : Bool × FileHeader × σ :=
  let r := s.write st h.buffer absoluteOffset FILE_HEADER_SIZE
  (r.1, h, r.2)

/-! ## The encoding the spec describes -/

/-- The spec's little-endian two's-complement encoding of the integer `v` in
`n` bytes: the least significant byte first, then the encoding of `v / 256`
(rounded down) in the remaining bytes. -/
def leBytes : Nat → Int → List Nat
  | 0, _ => []
  | n + 1, v => (v % 256).toNat :: leBytes n (v / 256)

/-- The unsigned little-endian value of a list of bytes. -/
def leUnsigned : List Nat → Nat
  | [] => 0
  | b :: bs => b + 256 * leUnsigned bs

/-- The spec's signed little-endian value of a list of bytes: the unsigned
value when its top bit is clear, the unsigned value minus `256 ^ length`
otherwise. -/
def leSigned (bs : List Nat) : Int :=
  if 2 * leUnsigned bs < 256 ^ bs.length then (leUnsigned bs : Int)
  else (leUnsigned bs : Int) - 256 ^ bs.length

/-! ## `File.h`: the file -/

/-- The class `File`, as far as `File.h` declares its data: the byte offset
`_offset` into the stream and the public `header`. The stream pointer
`_stream` is the stream passed to every operation. -/
structure File where
  offset : Int
  header : FileHeader
deriving DecidableEq

/-- Modelled from the spec: `File::load`, declared in `File.h` and defined in
a file that is not part of the sources at hand. "`load(stream, offset)`: read
and validate the header. Fails if the header read is short or
`num_records * 4 > size`", and "a failed operation leaves in-memory state as
it was before the call". The header is read with `FileHeader::read`. -/
def File.load {σ : Type} (s : EEPROMStream σ) (st : σ) (f : File) (offset : Int) :
    Bool × File × σ :=
  let r := f.header.read s st offset
  if r.1 = false then (false, f, r.2.2)
  else if r.2.1.numRecords * 4 > r.2.1.size then (false, f, r.2.2)
  else (true, { offset := offset, header := r.2.1 }, r.2.2)

/-- Modelled from the spec: `File::add`, declared in `File.h` and defined in a
file that is not part of the sources at hand. "`add(value: f32) -> bool`:
append one record. Fails when `num_records * 4 + 4 > size` (file full) or the
stream write fails. On success, increments `num_records` in the in-memory
header", the record being written "at `offset + 8 + num_records*4`". A value
is given by the 32 bits of its IEEE-754 encoding, which are stored least
significant byte first ("a pure bit reinterpretation"). -/
def File.add {σ : Type} (s : EEPROMStream σ) (st : σ) (f : File) (value : Int) :
    Bool × File × σ :=
  if f.header.numRecords * 4 + 4 > f.header.size then (false, f, st)
  else
    let r := s.write st (({} : IntUnion).setIntValue value).charValue
      (f.offset + FILE_HEADER_SIZE + f.header.numRecords * 4) 4
    if r.1 = true then
      (true, { f with header := { f.header with numRecords := f.header.numRecords + 1 } }, r.2)
    else (false, f, r.2)

/-! ## `sensor_config.h` -/

/-- The macro `kSensorIdLen`. -/
def kSensorIdLen : Nat := 8

/-- The macro `kSensorDbLen`. -/
def kSensorDbLen : Int := 483840

/-- The class `SensorConfig`: `identifier`, `pollIntervalMs`, `dbSize` and
`numValues`. The member `pins` has the type `PinConfiguration`, which is not
part of the sources at hand, and is left out. -/
structure SensorConfig where
  identifier : List Nat
  pollIntervalMs : Int
  dbSize : Int
  numValues : Int
deriving DecidableEq

/-- The constructor `SensorConfig(ident, databaseSize, numValues)`: `dbSize`
and `numValues` are initialised from the arguments and `kSensorIdLen` bytes of
`ident` are copied into `identifier`. `pollIntervalMs` is not initialised by
the constructor; `pollIntervalMs0` is the value the member happens to hold. -/
def SensorConfig.new (ident : List Nat) (databaseSize : Int) (numValues : Int)
    (pollIntervalMs0 : Int) : SensorConfig :=
  { identifier := memcpy (List.replicate kSensorIdLen 0) 0 ident kSensorIdLen
    pollIntervalMs := pollIntervalMs0
    dbSize := databaseSize
    numValues := numValues }

/-- The constructor called with two arguments, `SensorConfig(ident,
databaseSize)`: the declaration gives the third parameter the default value
`int numValues = 1`. -/
def SensorConfig.newDefault (ident : List Nat) (databaseSize : Int)
    (pollIntervalMs0 : Int) : SensorConfig :=
  SensorConfig.new ident databaseSize 1 pollIntervalMs0

/-! ## Sensors and the sensor manager -/

/-- Modelled from the spec: the class `Sensor` of `sensor.h`, which is not
part of the sources at hand. A sensor "holds its `SensorConfig`, a `File`
handle bound after registration, and a `last_poll_ms` timestamp", and is
"polymorphic over capability `poll(out) -> bool`". The behaviour of the
concrete sensor is the field `poll`: the result of the invocation made when
`pollCount` invocations have already been made, `none` for a failed poll
and the values produced (the 32 bits of each) for a successful one.
`pollCount` counts the invocations of `poll`, as the member of that name
does in the test's `DummySensor`. -/
structure Sensor where
  config : SensorConfig
  file : Option File
  lastPollMs : Int
  pollCount : Nat
  poll : Nat → Option (List Int)

/-- The test's `DummySensor` after `init(config)`: `poll` adds one to
`pollCount` and returns `true`; it stores nothing in `values`, so the values
read back are whatever the buffer held, here `values`. -/
def DummySensor (config : SensorConfig) (values : List Int) : Sensor :=
  { config := config
    file := none
    lastPollMs := 0
    pollCount := 0
    poll := fun _ => some values }

/-- Modelled from the spec: the class `SensorManager` of `sensor_manager.h`,
which is not part of the sources at hand. It "owns a set of registered
sensors": the addresses of the registered sensor objects in registration
order, no address twice. The sensor objects themselves live outside the
manager, in a store `Nat → Sensor` from addresses to objects. Registration,
`SensorManager::add`, is not modelled on the spec: the `last_poll_ms` the
spec gives a sensor at registration is not what the repository's test
observes (see `ManagerUnderTest.TestCase`). -/
structure SensorManager where
  sensors : List Nat
  nodup : sensors.Nodup

/-- The manager that `new SensorManager(data)` gives: no sensor registered. -/
def SensorManager.new : SensorManager :=
  { sensors := [], nodup := List.nodup_nil }

/-- Modelled from the spec: `SensorManager::remove`. "`remove(sensor) -> bool`:
unregister; the File remains in the directory." The result tells whether the
sensor was registered. -/
def SensorManager.remove (m : SensorManager) (sensor : Nat) : Bool × SensorManager :=
  (decide (sensor ∈ m.sensors),
    { sensors := m.sensors.filter (fun x => decide (x ≠ sensor))
      nodup := m.nodup.filter _ })

/-- Modelled from the spec: the values of one poll are appended to the
sensor's File, "each produced value ... in declaration order". -/
def appendReadings {σ : Type} (s : EEPROMStream σ) : List Int → File → σ → File × σ
  | [], f, st => (f, st)
  | v :: vs, f, st => appendReadings s vs (f.add s st v).2.1 (f.add s st v).2.2

/-- Modelled from the spec: what `SensorManager::update(now_ms)` does with one
registered sensor. "If `now_ms - last_poll_ms ≥ poll_interval_ms`, poll it; on
success, append its readings to the File and set `last_poll_ms = now_ms`. On
poll failure, log and leave `last_poll_ms` unchanged (retry next tick)." The
arithmetic is that of the spec's formula, on integers; the diagnostic log is
outside this development. -/
def updateSensor {σ : Type} (s : EEPROMStream σ) (nowMs : Int) (sen : Sensor) (st : σ) :
    Sensor × σ :=
  if nowMs - sen.lastPollMs ≥ sen.config.pollIntervalMs then
    match sen.poll sen.pollCount with
    | none => ({ sen with pollCount := sen.pollCount + 1 }, st)
    | some values =>
      match sen.file with
      | none => ({ sen with pollCount := sen.pollCount + 1, lastPollMs := nowMs }, st)
      | some f =>
        ({ sen with
            pollCount := sen.pollCount + 1
            file := some (appendReadings s values f st).1
            lastPollMs := nowMs },
          (appendReadings s values f st).2)
  else (sen, st)

/-- The loop of `SensorManager::update` over the registered sensors, "in
registration order". -/
def updateLoop {σ : Type} (s : EEPROMStream σ) (nowMs : Int) :
    List Nat → (Nat → Sensor) × σ → (Nat → Sensor) × σ
  | [], w => w
  | a :: rest, w =>
    updateLoop s nowMs rest
      (Function.update w.1 a (updateSensor s nowMs (w.1 a) w.2).1,
        (updateSensor s nowMs (w.1 a) w.2).2)

/-- Modelled from the spec: `SensorManager::update`. "`update(now_ms: i32)`:
for each registered sensor in registration order, if
`now_ms - last_poll_ms ≥ poll_interval_ms`, poll it; ...". -/
def SensorManager.update {σ : Type} (s : EEPROMStream σ) (m : SensorManager) (nowMs : Int)
    (w : (Nat → Sensor) × σ) : (Nat → Sensor) × σ :=
  updateLoop s nowMs m.sensors w

/-- Consecutive calls of `SensorManager::update`, one for each argument of the
list. -/
def SensorManager.updates {σ : Type} (s : EEPROMStream σ) (m : SensorManager) :
    List Int → (Nat → Sensor) × σ → (Nat → Sensor) × σ
  | [], w => w
  | t :: ts, w => SensorManager.updates s m ts (m.update s t w)

/-- The configuration of the test: `SensorConfig sensorConfig("DummySE", 1024)`
followed by `sensorConfig.pollIntervalMs = 10`. -/
def testConfig : SensorConfig :=
  { SensorConfig.new [68, 117, 109, 109, 121, 83, 69, 0] 1024 1 0 with pollIntervalMs := 10 }

/-- A File of 1024 bytes, the `dbSize` of the test's configuration, as a
Database Manager can bind it: at offset 16, with the header of an empty file
of version 1. -/
def testFile : File :=
  { offset := 16, header := { version := 1, size := 1024, numRecords := 0 } }

/-- The state of a small memory stream: 64 zero bytes. -/
def testMemory : List Nat := List.replicate 64 0

/-- The manager of the test while the dummy, at address 0, is registered. -/
def testManager : SensorManager :=
  { sensors := [0], nodup := List.nodup_singleton 0 }

/-- The store of the test while the dummy is registered: the `DummySensor`
initialised with `testConfig` and bound to `testFile`, with the given
`last_poll_ms` and poll count. -/
def testStore (lastPollMs : Int) (pollCount : Nat) : Nat → Sensor :=
  fun _ =>
    { DummySensor testConfig [0] with
      file := some testFile
      lastPollMs := lastPollMs
      pollCount := pollCount }

/-! ## The test of the sensor manager -/

/-- The operations of `SensorManager` that `sensor_manager_tests.cpp` calls,
with what it observes of its `DummySensor`. `sensor_manager.h` is not part of
the sources at hand, so the implementation is a parameter: `μ` is the state of
the manager together with the dummy sensor, `add` is `sensors->add(dummy)`,
`update` is `sensors->update(x)`, `remove` is `sensors->remove(dummy)` and
`pollCount` is `dummy->pollCount`, the number of calls of `DummySensor::poll`
so far. -/
structure ManagerUnderTest (μ : Type) where
  add : μ → Bool × μ
  update : μ → Int → μ
  remove : μ → Bool × μ
  pollCount : μ → Nat

/-- The test case `SensorManager` of `sensor_manager_tests.cpp`, lines 50 to
76, run from the state `start` in which the manager is constructed and the
dummy is initialised with `pollIntervalMs = 10`: every `REQUIRE` holds.
`REQUIRE(sensors->add(dummy))`, then `update(1)` with `pollCount == 0`,
`update(9)` with `pollCount == 1`, `update(100)` with `pollCount == 2`,
`REQUIRE(sensors->remove(dummy))` and `update(100)` with `pollCount == 2`. -/
def ManagerUnderTest.TestCase {μ : Type} (impl : ManagerUnderTest μ) (start : μ) : Prop :=
  (impl.add start).1 = true ∧
  impl.pollCount (impl.update (impl.add start).2 1) = 0 ∧
  impl.pollCount (impl.update (impl.update (impl.add start).2 1) 9) = 1 ∧
  impl.pollCount (impl.update (impl.update (impl.update (impl.add start).2 1) 9) 100) = 2 ∧
  (impl.remove
    (impl.update (impl.update (impl.update (impl.add start).2 1) 9) 100)).1 = true ∧
  impl.pollCount (impl.update (impl.remove
    (impl.update (impl.update (impl.update (impl.add start).2 1) 9) 100)).2 100) = 2

instance {μ : Type} (impl : ManagerUnderTest μ) (start : μ) : Decidable (impl.TestCase start) := by
  unfold ManagerUnderTest.TestCase; infer_instance

/-- The spec's immediate-due registration, as far as the test can observe it,
for a registration at the clock tick `tick`: "the sensor is due immediately",
so the first `update(now_ms)` after `add` with `now_ms ≥ tick` polls the
sensor, that is, raises its poll count. -/
def ManagerUnderTest.DueImmediately {μ : Type} (impl : ManagerUnderTest μ) (start : μ)
    (tick : Int) : Prop :=
  ∀ nowMs : Int, tick ≤ nowMs →
    impl.pollCount (impl.add start).2 < impl.pollCount (impl.update (impl.add start).2 nowMs)

/-- The state of `elapsedManager`: whether the dummy is registered, the
milliseconds counted since its registration or last poll, and its poll
count. -/
structure ElapsedState where
  registered : Bool
  elapsedMs : Int
  pollCount : Nat
deriving DecidableEq

/-- An implementation of the operations the test calls, used to show that
the test case can be passed: for the one sensor, with the poll interval
`intervalMs`, it counts the milliseconds that the arguments of `update` add
up to since the registration or the last poll and polls when the count has
reached the interval (the spec's "`elapsed ≥ interval`"). -/
def elapsedManager (intervalMs : Int) : ManagerUnderTest ElapsedState where
  add := fun m => (true, { m with registered := true, elapsedMs := 0 })
  update := fun m x =>
    if m.registered = true then
      if m.elapsedMs + x ≥ intervalMs then
        { m with elapsedMs := 0, pollCount := m.pollCount + 1 }
      else { m with elapsedMs := m.elapsedMs + x }
    else m
  remove := fun m => (m.registered, { m with registered := false })
  pollCount := fun m => m.pollCount

/-! ## The header codec -/

theorem FileHeader.buffer_eq (h : FileHeader) :
    h.buffer = leBytes 4 h.version ++ (leBytes 2 h.size ++ leBytes 2 h.numRecords) := by
  simp only [FileHeader.buffer, memcpy, IntUnion.setIntValue, ShortUnion.setShortValue,
    FILE_HEADER_SIZE, leBytes, List.replicate, List.take, List.drop, List.append_nil,
    List.nil_append, List.cons_append, List.cons.injEq, and_true]
  refine ⟨?_, ?_, ?_, ?_, ?_, ?_, ?_, ?_⟩ <;> omega

theorem FileHeader.buffer_length (h : FileHeader) : h.buffer.length = 8 := by
  rw [FileHeader.buffer_eq]; simp [leBytes]

theorem FileHeader.write_eq {σ : Type} (s : EEPROMStream σ) (st : σ) (h : FileHeader)
    (off : Int) :
    h.write s st off = ((s.write st h.buffer off 8).1, h, (s.write st h.buffer off 8).2) := by
  simp [FileHeader.write, FILE_HEADER_SIZE]

theorem FileHeader.read_of_full {σ : Type} (s : EEPROMStream σ) (st : σ) (h : FileHeader)
    (off : Int) (b0 b1 b2 b3 b4 b5 b6 b7 : Nat)
    (hr : (s.read st off 8).1 = (8, [b0, b1, b2, b3, b4, b5, b6, b7])) :
    h.read s st off = (true,
      { version := ({ charValue := [b0 % 256, b1 % 256, b2 % 256, b3 % 256] } : IntUnion).intValue
        size := ({ charValue := [b4 % 256, b5 % 256] } : ShortUnion).shortValue
        numRecords := ({ charValue := [b6 % 256, b7 % 256] } : ShortUnion).shortValue },
      (s.read st off 8).2) := by
  simp [FileHeader.read, FILE_HEADER_SIZE, hr, IntUnion.setChar, ShortUnion.setChar]

theorem FileHeader.read_short {σ : Type} (s : EEPROMStream σ) (st : σ) (h : FileHeader)
    (off : Int) (hc : (s.read st off 8).1.1 ≠ 8) :
    h.read s st off = (false, h, (s.read st off 8).2) := by
  have hne : (8 : Int) ≠ (s.read st off 8).1.1 := fun e => hc e.symm
  simp [FileHeader.read, FILE_HEADER_SIZE, hne]

theorem FileHeader.read_full_fst {σ : Type} (s : EEPROMStream σ) (st : σ) (h : FileHeader)
    (off : Int) (hc : (s.read st off 8).1.1 = 8) :
    (h.read s st off).1 = true := by
  simp [FileHeader.read, FILE_HEADER_SIZE, hc]

theorem list_eq_of_length_eight (b : List Nat) (hlen : b.length = 8) :
    ∃ b0 b1 b2 b3 b4 b5 b6 b7, b = [b0, b1, b2, b3, b4, b5, b6, b7] := by
  match b, hlen with
  | [b0, b1, b2, b3, b4, b5, b6, b7], _ => exact ⟨b0, b1, b2, b3, b4, b5, b6, b7, rfl⟩

theorem intUnion_roundtrip (v : Int) (h1 : -2147483648 ≤ v) (h2 : v ≤ 2147483647) :
    ({ charValue := [(v % 256).toNat % 256, (v / 256 % 256).toNat % 256,
        (v / 256 / 256 % 256).toNat % 256, (v / 256 / 256 / 256 % 256).toNat % 256] }
      : IntUnion).intValue = v := by
  simp only [IntUnion.intValue, List.getD_cons_zero, List.getD_cons_succ]
  omega

theorem shortUnion_roundtrip (v : Int) (h1 : -32768 ≤ v) (h2 : v ≤ 32767) :
    ({ charValue := [(v % 256).toNat % 256, (v / 256 % 256).toNat % 256] }
      : ShortUnion).shortValue = v := by
  simp only [ShortUnion.shortValue, List.getD_cons_zero, List.getD_cons_succ]
  omega

theorem intUnion_leSigned (b0 b1 b2 b3 : Nat) (h0 : b0 < 256) (h1 : b1 < 256)
    (h2 : b2 < 256) (h3 : b3 < 256) :
    ({ charValue := [b0 % 256, b1 % 256, b2 % 256, b3 % 256] } : IntUnion).intValue
      = leSigned [b0, b1, b2, b3] := by
  simp only [IntUnion.intValue, leSigned, leUnsigned, List.getD_cons_zero, List.getD_cons_succ,
    List.length_cons, List.length_nil]
  norm_num
  split_ifs <;> omega

theorem shortUnion_leSigned (b0 b1 : Nat) (h0 : b0 < 256) (h1 : b1 < 256) :
    ({ charValue := [b0 % 256, b1 % 256] } : ShortUnion).shortValue = leSigned [b0, b1] := by
  simp only [ShortUnion.shortValue, leSigned, leUnsigned, List.getD_cons_zero,
    List.getD_cons_succ, List.length_cons, List.length_nil]
  norm_num
  split_ifs <;> omega

/-- What `FileHeader::read` decodes from eight bytes that the stream returns
in full. -/
theorem FileHeader.read_leSigned {σ : Type} (s : EEPROMStream σ) (st : σ) (h : FileHeader)
    (off : Int) (b : List Nat) (hlen : b.length = 8) (hbyte : ∀ x ∈ b, x < 256)
    (hread : (s.read st off 8).1 = (8, b)) :
    h.read s st off = (true,
      { version := leSigned (b.take 4)
        size := leSigned ((b.drop 4).take 2)
        numRecords := leSigned ((b.drop 6).take 2) },
      (s.read st off 8).2) := by
  obtain ⟨b0, b1, b2, b3, b4, b5, b6, b7, rfl⟩ := list_eq_of_length_eight b hlen
  simp only [List.mem_cons, List.mem_singleton, List.not_mem_nil, or_false, forall_eq_or_imp,
    forall_eq] at hbyte
  obtain ⟨h0, h1, h2, h3, h4, h5, h6, h7⟩ := hbyte
  rw [FileHeader.read_of_full s st h off _ _ _ _ _ _ _ _ hread,
    intUnion_leSigned _ _ _ _ h0 h1 h2 h3, shortUnion_leSigned _ _ h4 h5,
    shortUnion_leSigned _ _ h6 h7]
  rfl

theorem memoryStream_faithful (mem : List Nat) (off : Nat) (buf : List Nat) (n : Nat)
    (hlen : buf.length = n)
    (hw : (memoryStream.write mem buf off n).1 = true) :
    (memoryStream.read (memoryStream.write mem buf off n).2 off n).1 = ((n : Int), buf) := by
  by_cases hc : (0 : Int) ≤ off ∧ (0 : Int) ≤ n ∧ (off : Int) + n ≤ mem.length
  · have hc3 : off + n ≤ mem.length := by omega
    have hl : (List.take off mem ++ (List.take n buf ++ List.drop (off + n) mem)).length
        = mem.length := by
      simp only [List.length_append, List.length_take, List.length_drop, hlen]; omega
    have h1 : (List.take off mem).length = off := by
      simp only [List.length_take]; omega
    have hd : List.drop off (List.take off mem ++ (List.take n buf ++ List.drop (off + n) mem))
        = List.take n buf ++ List.drop (off + n) mem := by
      rw [List.drop_append_of_le_length (by omega), List.drop_of_length_le (by omega)]
      rfl
    have ht : List.take n (List.take n buf ++ List.drop (off + n) mem) = buf := by
      subst hlen
      simp
    simp only [memoryStream, if_pos hc, Int.toNat_ofNat, hl, hd, ht]
  · simp only [memoryStream, if_neg hc] at hw
    exact absurd hw (by decide)

/-- Claim C1 (header round trip). For every header whose fields are in range
and every offset: when `FileHeader::write` returns `true` on a stream that,
for an 8-byte read at the offset of an accepted 8-byte write, returns the
bytes it was given, `FileHeader::read` at that offset on any header object
`h0` returns `true` and leaves it with the written `version`, `size` and
`numRecords`. -/
theorem FileHeader.write_read_roundtrip {σ : Type} (s : EEPROMStream σ) (st : σ)
    (h h0 : FileHeader) (absoluteOffset : Int) (hrange : h.InRange)
    (hfaithful : ∀ buf : List Nat, buf.length = 8 →
      (s.write st buf absoluteOffset 8).1 = true →
      (s.read (s.write st buf absoluteOffset 8).2 absoluteOffset 8).1 = (8, buf))
    (hwrite : (h.write s st absoluteOffset).1 = true) :
    (h0.read s (h.write s st absoluteOffset).2.2 absoluteOffset).1 = true ∧
    (h0.read s (h.write s st absoluteOffset).2.2 absoluteOffset).2.1.version = h.version ∧
    (h0.read s (h.write s st absoluteOffset).2.2 absoluteOffset).2.1.size = h.size ∧
    (h0.read s (h.write s st absoluteOffset).2.2 absoluteOffset).2.1.numRecords
      = h.numRecords := by
  obtain ⟨⟨hv1, hv2⟩, ⟨hs1, hs2⟩, hn1, hn2⟩ := hrange
  rw [FileHeader.write_eq] at hwrite ⊢
  have hr := hfaithful h.buffer h.buffer_length hwrite
  rw [FileHeader.buffer_eq] at hr ⊢
  simp only [leBytes, List.cons_append, List.nil_append] at hr ⊢
  rw [FileHeader.read_of_full s _ h0 absoluteOffset _ _ _ _ _ _ _ _ hr]
  exact ⟨rfl, intUnion_roundtrip h.version hv1 hv2, shortUnion_roundtrip h.size hs1 hs2,
    shortUnion_roundtrip h.numRecords hn1 hn2⟩

/-- Claim C1 at the header `{-2, 1024, 3}`, written at offset 4 of a memory
stream of 64 bytes and read back into the header `{7, 7, 7}`. -/
theorem FileHeader.write_read_roundtrip_witness :
    (FileHeader.mk (-2) 1024 3).InRange ∧
    ((FileHeader.mk (-2) 1024 3).write memoryStream testMemory 4).1 = true ∧
    ((FileHeader.mk 7 7 7).read memoryStream
      ((FileHeader.mk (-2) 1024 3).write memoryStream testMemory 4).2.2 4).1 = true ∧
    ((FileHeader.mk 7 7 7).read memoryStream
      ((FileHeader.mk (-2) 1024 3).write memoryStream testMemory 4).2.2 4).2.1.version = -2 ∧
    ((FileHeader.mk 7 7 7).read memoryStream
      ((FileHeader.mk (-2) 1024 3).write memoryStream testMemory 4).2.2 4).2.1.size = 1024 ∧
    ((FileHeader.mk 7 7 7).read memoryStream
      ((FileHeader.mk (-2) 1024 3).write memoryStream testMemory 4).2.2 4).2.1.numRecords = 3 :=
  ⟨by decide, by decide,
    FileHeader.write_read_roundtrip memoryStream testMemory (FileHeader.mk (-2) 1024 3)
      (FileHeader.mk 7 7 7) 4 (by decide)
      (fun buf hlen hw => memoryStream_faithful testMemory 4 buf 8 hlen hw) (by decide)⟩

/-- Claim C2 (header on-disk layout). On a stream with a journal,
`FileHeader::write` adds exactly one entry to the journal: a write at
`absoluteOffset` of length `FILE_HEADER_SIZE` whose buffer is `version` in 4
little-endian two's-complement bytes, then `size` in 2, then `numRecords` in
2; the buffer has 8 bytes, so nothing outside
`[absoluteOffset, absoluteOffset + 8)` is passed to the stream. -/
theorem FileHeader.write_layout {σ : Type} (s : EEPROMStream σ) (st : σ)
    (journal : List StreamCall) (h : FileHeader) (absoluteOffset : Int) :
    (h.write s.logged (st, journal) absoluteOffset).2.2.2 =
      journal ++ [StreamCall.write
        (leBytes 4 h.version ++ (leBytes 2 h.size ++ leBytes 2 h.numRecords))
        absoluteOffset 8] ∧
    (leBytes 4 h.version ++ (leBytes 2 h.size ++ leBytes 2 h.numRecords)).length = 8 ∧
    FILE_HEADER_SIZE = 8 := by
  refine ⟨?_, ?_, rfl⟩
  · rw [FileHeader.write_eq, FileHeader.buffer_eq]
    simp [EEPROMStream.logged]
  · simp [leBytes]

/-- Claim C3 (header decoding). When the stream returns the 8 bytes `b` in
full, `FileHeader::read` returns `true` and sets `version` to the signed
little-endian value of `b[0..3]`, `size` to that of `b[4..5]` and `numRecords`
to that of `b[6..7]`; with `b[4..5] = FF FF` the size is `-1`. -/
theorem FileHeader.read_decodes {σ : Type} (s : EEPROMStream σ) (st : σ) (h : FileHeader)
    (absoluteOffset : Int) (b : List Nat) (hlen : b.length = 8) (hbyte : ∀ x ∈ b, x < 256)
    (hread : (s.read st absoluteOffset FILE_HEADER_SIZE).1 = (8, b)) :
    (h.read s st absoluteOffset).1 = true ∧
    (h.read s st absoluteOffset).2.1.version = leSigned (b.take 4) ∧
    (h.read s st absoluteOffset).2.1.size = leSigned ((b.drop 4).take 2) ∧
    (h.read s st absoluteOffset).2.1.numRecords = leSigned ((b.drop 6).take 2) ∧
    (b.getD 4 0 = 255 → b.getD 5 0 = 255 → (h.read s st absoluteOffset).2.1.size = -1) := by
  have hr : (s.read st absoluteOffset 8).1 = (8, b) := hread
  rw [FileHeader.read_leSigned s st h absoluteOffset b hlen hbyte hr]
  refine ⟨rfl, rfl, rfl, rfl, ?_⟩
  obtain ⟨b0, b1, b2, b3, b4, b5, b6, b7, rfl⟩ := list_eq_of_length_eight b hlen
  intro e4 e5
  simp only [List.getD_cons_zero, List.getD_cons_succ] at e4 e5
  subst e4 e5
  dsimp only [List.take, List.drop]
  decide

/-- Claim C3 at the bytes `01 00 00 00 FF FF 03 80`: version `1`, size `-1`,
numRecords `-32765`. -/
theorem FileHeader.read_decodes_witness :
    ((FileHeader.mk 7 7 7).read memoryStream [1, 0, 0, 0, 255, 255, 3, 128] 0).1 = true ∧
    ((FileHeader.mk 7 7 7).read memoryStream [1, 0, 0, 0, 255, 255, 3, 128] 0).2.1.version
      = 1 ∧
    ((FileHeader.mk 7 7 7).read memoryStream [1, 0, 0, 0, 255, 255, 3, 128] 0).2.1.size
      = -1 ∧
    ((FileHeader.mk 7 7 7).read memoryStream [1, 0, 0, 0, 255, 255, 3, 128] 0).2.1.numRecords
      = -32765 :=
  have h := FileHeader.read_decodes memoryStream [1, 0, 0, 0, 255, 255, 3, 128]
    (FileHeader.mk 7 7 7) 0 [1, 0, 0, 0, 255, 255, 3, 128] (by decide) (by decide) (by decide)
  ⟨h.1, h.2.1.trans (by decide), h.2.2.2.2 (by decide) (by decide),
    h.2.2.2.1.trans (by decide)⟩

/-- Claim C4 (header read failure is clean). `FileHeader::read` returns `false`
if and only if the stream's read of `FILE_HEADER_SIZE` bytes at
`absoluteOffset` reports a count other than 8, and when it returns `false`
the header's `version`, `size` and `numRecords` are what they were. -/
theorem FileHeader.read_failure_clean {σ : Type} (s : EEPROMStream σ) (st : σ)
    (h : FileHeader) (absoluteOffset : Int) :
    ((h.read s st absoluteOffset).1 = false ↔
      (s.read st absoluteOffset FILE_HEADER_SIZE).1.1 ≠ 8) ∧
    ((h.read s st absoluteOffset).1 = false →
      (h.read s st absoluteOffset).2.1.version = h.version ∧
      (h.read s st absoluteOffset).2.1.size = h.size ∧
      (h.read s st absoluteOffset).2.1.numRecords = h.numRecords) := by
  have e : ((FILE_HEADER_SIZE : Nat) : Int) = 8 := rfl
  rw [e]
  by_cases hc : (s.read st absoluteOffset 8).1.1 = 8
  · have h1 := FileHeader.read_full_fst s st h absoluteOffset hc
    simp [h1, hc]
  · rw [FileHeader.read_short s st h absoluteOffset hc]
    simp [hc]

/-- Claim C4 at a read that leaves the array (offset 60 of 64 bytes): the
count is 0, the result `false` and the header `{7, 8, 9}` is kept. -/
theorem FileHeader.read_failure_clean_witness :
    (memoryStream.read testMemory 60 FILE_HEADER_SIZE).1.1 ≠ 8 ∧
    ((FileHeader.mk 7 8 9).read memoryStream testMemory 60).1 = false ∧
    ((FileHeader.mk 7 8 9).read memoryStream testMemory 60).2.1.version = 7 ∧
    ((FileHeader.mk 7 8 9).read memoryStream testMemory 60).2.1.size = 8 ∧
    ((FileHeader.mk 7 8 9).read memoryStream testMemory 60).2.1.numRecords = 9 :=
  have h := FileHeader.read_failure_clean memoryStream testMemory (FileHeader.mk 7 8 9) 60
  ⟨by decide, h.1.mpr (by decide), h.2 (h.1.mpr (by decide))⟩

/-- Claim C5 (header validation on load). Loading a file whose stored header,
the 8 bytes `b` at the offset, has `num_records * 4 > size` fails; and after
a load that returns `true` the header in memory is the one read from the
stream and satisfies `num_records * 4 ≤ size`. -/
theorem File.load_validates {σ : Type} (s : EEPROMStream σ) (st : σ) (f : File)
    (offset : Int) :
    (∀ b : List Nat, b.length = 8 → (∀ x ∈ b, x < 256) →
      (s.read st offset FILE_HEADER_SIZE).1 = (8, b) →
      leSigned ((b.drop 6).take 2) * 4 > leSigned ((b.drop 4).take 2) →
      (f.load s st offset).1 = false) ∧
    ((f.load s st offset).1 = true →
      (f.load s st offset).2.1.header = (f.header.read s st offset).2.1 ∧
      (f.load s st offset).2.1.header.numRecords * 4
        ≤ (f.load s st offset).2.1.header.size) := by
  constructor
  · intro b hlen hbyte hread hbad
    have hr : (s.read st offset 8).1 = (8, b) := hread
    unfold File.load
    rw [FileHeader.read_leSigned s st f.header offset b hlen hbyte hr]
    simp [hbad]
  · intro h
    unfold File.load at h ⊢
    dsimp only at h ⊢
    split_ifs at h ⊢ with h1 h2
    exact ⟨rfl, not_lt.mp h2⟩

/-- Claim C5 at two stored headers: `{1, 8, 3}` (12 > 8) is refused and the
file in memory is kept, `{1, 8, 2}` is loaded. -/
theorem File.load_validates_witness :
    (testFile.load memoryStream [1, 0, 0, 0, 8, 0, 3, 0] 0).1 = false ∧
    (testFile.load memoryStream [1, 0, 0, 0, 8, 0, 2, 0] 0).1 = true ∧
    (testFile.load memoryStream [1, 0, 0, 0, 8, 0, 2, 0] 0).2.1.header.numRecords * 4
      ≤ (testFile.load memoryStream [1, 0, 0, 0, 8, 0, 2, 0] 0).2.1.header.size :=
  ⟨(File.load_validates memoryStream [1, 0, 0, 0, 8, 0, 3, 0] testFile 0).1
      [1, 0, 0, 0, 8, 0, 3, 0] (by decide) (by decide) (by decide) (by decide),
    by decide,
    ((File.load_validates memoryStream [1, 0, 0, 0, 8, 0, 2, 0] testFile 0).2 (by decide)).2⟩

/-- Claim C6 (header write result and frame). `FileHeader::write` returns
`true` if and only if the stream's write of the 8 header bytes returns `true`,
it returns `false` if and only if that write returns `false`, and in both
cases `version`, `size` and `numRecords` are unchanged. -/
theorem FileHeader.write_result_frame {σ : Type} (s : EEPROMStream σ) (st : σ)
    (h : FileHeader) (absoluteOffset : Int) :
    ((h.write s st absoluteOffset).1 = true ↔
      (s.write st (leBytes 4 h.version ++ (leBytes 2 h.size ++ leBytes 2 h.numRecords))
        absoluteOffset FILE_HEADER_SIZE).1 = true) ∧
    ((h.write s st absoluteOffset).1 = false ↔
      (s.write st (leBytes 4 h.version ++ (leBytes 2 h.size ++ leBytes 2 h.numRecords))
        absoluteOffset FILE_HEADER_SIZE).1 = false) ∧
    (h.write s st absoluteOffset).2.1.version = h.version ∧
    (h.write s st absoluteOffset).2.1.size = h.size ∧
    (h.write s st absoluteOffset).2.1.numRecords = h.numRecords := by
  rw [FileHeader.write_eq, FileHeader.buffer_eq]
  simp [FILE_HEADER_SIZE]

/-! ## The schedule of the sensor manager -/

theorem updateSensor_pollCount {σ : Type} (s : EEPROMStream σ) (now : Int) (sen : Sensor)
    (st : σ) :
    (updateSensor s now sen st).1.pollCount =
      if now - sen.lastPollMs ≥ sen.config.pollIntervalMs then sen.pollCount + 1
      else sen.pollCount := by
  unfold updateSensor
  split_ifs with hd
  · cases hp : sen.poll sen.pollCount with
    | none => rfl
    | some values => cases hf : sen.file <;> rfl
  · rfl

theorem updateSensor_lastPollMs {σ : Type} (s : EEPROMStream σ) (now : Int) (sen : Sensor)
    (st : σ) :
    (updateSensor s now sen st).1.lastPollMs =
      if now - sen.lastPollMs ≥ sen.config.pollIntervalMs ∧ sen.poll sen.pollCount ≠ none
      then now else sen.lastPollMs := by
  unfold updateSensor
  by_cases hd : now - sen.lastPollMs ≥ sen.config.pollIntervalMs
  · rw [if_pos hd]
    cases hp : sen.poll sen.pollCount with
    | none => simp
    | some values => cases hf : sen.file <;> simp [hd]
  · rw [if_neg hd, if_neg (fun h => hd h.1)]

theorem updateSensor_config {σ : Type} (s : EEPROMStream σ) (now : Int) (sen : Sensor)
    (st : σ) : (updateSensor s now sen st).1.config = sen.config := by
  unfold updateSensor
  split_ifs with hd
  · cases hp : sen.poll sen.pollCount with
    | none => rfl
    | some values => cases hf : sen.file <;> rfl
  · rfl

theorem updateSensor_poll {σ : Type} (s : EEPROMStream σ) (now : Int) (sen : Sensor)
    (st : σ) : (updateSensor s now sen st).1.poll = sen.poll := by
  unfold updateSensor
  split_ifs with hd
  · cases hp : sen.poll sen.pollCount with
    | none => rfl
    | some values => cases hf : sen.file <;> rfl
  · rfl

theorem updateLoop_frame {σ : Type} (s : EEPROMStream σ) (now : Int) (a : Nat) :
    ∀ (l : List Nat) (w : (Nat → Sensor) × σ), a ∉ l → (updateLoop s now l w).1 a = w.1 a
  | [], _, _ => rfl
  | x :: rest, w, h => by
    have hx : a ≠ x := fun e => h (e ▸ List.mem_cons_self _ _)
    have hr : a ∉ rest := fun e => h (List.mem_cons_of_mem _ e)
    rw [updateLoop, updateLoop_frame s now a rest _ hr]
    exact Function.update_noteq hx _ _

theorem updateLoop_at {σ : Type} (s : EEPROMStream σ) (now : Int) (a : Nat) :
    ∀ (l : List Nat) (w : (Nat → Sensor) × σ), l.Nodup → a ∈ l →
      ∃ st, (updateLoop s now l w).1 a = (updateSensor s now (w.1 a) st).1
  | [], _, _, h => absurd h (List.not_mem_nil a)
  | x :: rest, w, hn, h => by
    rw [List.nodup_cons] at hn
    rw [updateLoop]
    by_cases hx : a = x
    · subst hx
      refine ⟨w.2, ?_⟩
      rw [updateLoop_frame s now a rest _ hn.1]
      exact Function.update_same _ _ _
    · have hr : a ∈ rest := (List.mem_cons.mp h).resolve_left hx
      obtain ⟨st, hst⟩ := updateLoop_at s now a rest
        (Function.update w.1 x (updateSensor s now (w.1 x) w.2).1,
          (updateSensor s now (w.1 x) w.2).2) hn.2 hr
      refine ⟨st, ?_⟩
      rw [hst]
      simp only [Function.update_noteq hx]

theorem updates_frame {σ : Type} (s : EEPROMStream σ) (m : SensorManager) (a : Nat)
    (ha : a ∉ m.sensors) :
    ∀ (ts : List Int) (w : (Nat → Sensor) × σ), (m.updates s ts w).1 a = w.1 a
  | [], _ => rfl
  | t :: ts, w => by
    rw [SensorManager.updates, updates_frame s m a ha ts]
    exact updateLoop_frame s t a m.sensors w ha


theorem update_at {σ : Type} (s : EEPROMStream σ) (m : SensorManager) (now : Int) (a : Nat)
    (w : (Nat → Sensor) × σ) (ha : a ∈ m.sensors) :
    ∃ st, (m.update s now w).1 a = (updateSensor s now (w.1 a) st).1 :=
  updateLoop_at s now a m.sensors w m.nodup ha

/-- Claim C9 (no catch-up). One `update` call raises the poll count of a
registered sensor by at most one; when the sensor is due it raises it by
exactly one, however far `now_ms` is beyond `last_poll_ms`, as `update(100)`
does for an interval of 10 after a poll at 9. -/
theorem SensorManager.update_polls_at_most_once {σ : Type} (s : EEPROMStream σ)
    (m : SensorManager) (store : Nat → Sensor) (st : σ) (sensor : Nat) (nowMs : Int)
    (hreg : sensor ∈ m.sensors) :
    ((m.update s nowMs (store, st)).1 sensor).pollCount ≤ (store sensor).pollCount + 1 ∧
    (nowMs - (store sensor).lastPollMs ≥ (store sensor).config.pollIntervalMs →
      ((m.update s nowMs (store, st)).1 sensor).pollCount = (store sensor).pollCount + 1) ∧
    ((store sensor).config.pollIntervalMs = 10 → (store sensor).lastPollMs = 9 →
      ((m.update s 100 (store, st)).1 sensor).pollCount = (store sensor).pollCount + 1) := by
  obtain ⟨st1, h1⟩ := update_at s m nowMs sensor (store, st) hreg
  obtain ⟨st2, h2⟩ := update_at s m 100 sensor (store, st) hreg
  rw [h1, h2, updateSensor_pollCount, updateSensor_pollCount]
  refine ⟨?_, ?_, ?_⟩
  · simp only []; split_ifs <;> omega
  · intro hd
    simp only [] at hd ⊢
    rw [if_pos hd]
  · intro hi hl
    simp only [] at hi hl ⊢
    rw [hi, hl]
    rfl

/-- Claim C9 at the test's `update(100)`: the dummy is registered with the
interval 10, its poll count is 1 and its last poll was at 9, as after the
test's `update(9)`; the call raises the poll count to 2, by one poll and not
by nine. -/
theorem SensorManager.update_polls_at_most_once_witness :
    0 ∈ testManager.sensors ∧
    (testStore 9 1 0).pollCount = 1 ∧
    ((testManager.update memoryStream 100 (testStore 9 1, testMemory)).1 0).pollCount = 2 :=
  ⟨by decide, by decide,
    ((SensorManager.update_polls_at_most_once memoryStream testManager (testStore 9 1)
      testMemory 0 100 (by decide)).2.1 (by decide)).trans (by decide)⟩

/-- Claim C10 (unregistration). For a registered sensor, `remove(sensor)`
returns `true` and leaves it unregistered, and whatever later `update` calls
are made, with whatever arguments, the poll count of that sensor stays what it
was. -/
theorem SensorManager.remove_stops_polling {σ : Type} (s : EEPROMStream σ)
    (m : SensorManager) (sensor : Nat) (hreg : sensor ∈ m.sensors) :
    (m.remove sensor).1 = true ∧
    sensor ∉ (m.remove sensor).2.sensors ∧
    ∀ (nows : List Int) (store : Nat → Sensor) (st : σ),
      (((m.remove sensor).2.updates s nows (store, st)).1 sensor).pollCount
        = (store sensor).pollCount := by
  have hnot : sensor ∉ (m.remove sensor).2.sensors := by
    simp [SensorManager.remove]
  refine ⟨by simp [SensorManager.remove, hreg], hnot, fun nows store st => ?_⟩
  rw [updates_frame s (m.remove sensor).2 sensor hnot nows (store, st)]

/-- Claim C10 at the end of the test: the dummy is registered and its poll
count is 2, as after the test's `update(100)`; `remove(dummy)` returns `true`
and the next `update(100)` leaves the poll count at 2. -/
theorem SensorManager.remove_stops_polling_witness :
    0 ∈ testManager.sensors ∧
    (testManager.remove 0).1 = true ∧
    (((testManager.remove 0).2.updates memoryStream [100]
      (testStore 100 2, testMemory)).1 0).pollCount = 2 :=
  have h := SensorManager.remove_stops_polling memoryStream testManager 0 (by decide)
  ⟨by decide, h.1, (h.2.2 [100] (testStore 100 2) testMemory).trans (by decide)⟩

/-! ## The file, the sensor configuration and the sizes -/

theorem intUnion_charValue (u : IntUnion) (v : Int) :
    (u.setIntValue v).charValue = leBytes 4 v := by
  simp only [IntUnion.setIntValue, leBytes, List.cons.injEq, and_true]
  refine ⟨?_, ?_, ?_, ?_⟩ <;> omega

theorem leBytes_leSigned_four (b0 b1 b2 b3 : Nat) (h0 : b0 < 256) (h1 : b1 < 256)
    (h2 : b2 < 256) (h3 : b3 < 256) :
    leBytes 4 (leSigned [b0, b1, b2, b3]) = [b0, b1, b2, b3] := by
  simp only [leSigned, leUnsigned, leBytes, List.length_cons, List.length_nil,
    List.cons.injEq, and_true]
  norm_num
  split_ifs <;> refine ⟨?_, ?_, ?_, ?_⟩ <;> omega

theorem leBytes_leSigned_two (b0 b1 : Nat) (h0 : b0 < 256) (h1 : b1 < 256) :
    leBytes 2 (leSigned [b0, b1]) = [b0, b1] := by
  simp only [leSigned, leUnsigned, leBytes, List.length_cons, List.length_nil,
    List.cons.injEq, and_true]
  norm_num
  split_ifs <;> refine ⟨?_, ?_⟩ <;> omega

theorem leSigned_four_range (b0 b1 b2 b3 : Nat) (h0 : b0 < 256) (h1 : b1 < 256)
    (h2 : b2 < 256) (h3 : b3 < 256) :
    -2147483648 ≤ leSigned [b0, b1, b2, b3] ∧ leSigned [b0, b1, b2, b3] ≤ 2147483647 := by
  simp only [leSigned, leUnsigned, List.length_cons, List.length_nil]
  norm_num
  split_ifs <;> omega

theorem leSigned_two_range (b0 b1 : Nat) (h0 : b0 < 256) (h1 : b1 < 256) :
    -32768 ≤ leSigned [b0, b1] ∧ leSigned [b0, b1] ≤ 32767 := by
  simp only [leSigned, leUnsigned, List.length_cons, List.length_nil]
  norm_num
  split_ifs <;> omega


theorem memoryStream_read_all (b : List Nat) (hlen : b.length = 8) :
    (memoryStream.read b 0 8).1 = (8, b) := by
  have h8 : List.take 8 b = b := List.take_of_length_le (by omega)
  simp [memoryStream, hlen, h8]

theorem FileHeader.buffer_read_leSigned {σ : Type} (s : EEPROMStream σ) (st : σ)
    (h : FileHeader) (off : Int) (b : List Nat) (hlen : b.length = 8)
    (hbyte : ∀ x ∈ b, x < 256) (hread : (s.read st off 8).1 = (8, b)) :
    (h.read s st off).2.1.buffer = b ∧ (h.read s st off).2.1.InRange := by
  rw [FileHeader.read_leSigned s st h off b hlen hbyte hread]
  obtain ⟨b0, b1, b2, b3, b4, b5, b6, b7, rfl⟩ := list_eq_of_length_eight b hlen
  simp only [List.mem_cons, List.mem_singleton, List.not_mem_nil, or_false, forall_eq_or_imp,
    forall_eq] at hbyte
  obtain ⟨h0, h1, h2, h3, h4, h5, h6, h7⟩ := hbyte
  constructor
  · rw [FileHeader.buffer_eq]
    dsimp only [List.take, List.drop]
    rw [leBytes_leSigned_four _ _ _ _ h0 h1 h2 h3, leBytes_leSigned_two _ _ h4 h5,
      leBytes_leSigned_two _ _ h6 h7]
    rfl
  · dsimp only [List.take, List.drop, FileHeader.InRange]
    exact ⟨leSigned_four_range _ _ _ _ h0 h1 h2 h3, leSigned_two_range _ _ h4 h5,
      leSigned_two_range _ _ h6 h7⟩

theorem FileHeader.read_buffer (h h0 : FileHeader) (hrange : h.InRange) :
    h0.read memoryStream h.buffer 0 = (true, h, h.buffer) := by
  obtain ⟨⟨hv1, hv2⟩, ⟨hs1, hs2⟩, hn1, hn2⟩ := hrange
  have hr := memoryStream_read_all h.buffer h.buffer_length
  have hst : (memoryStream.read h.buffer 0 8).2 = h.buffer := by
    simp [memoryStream, FileHeader.buffer_length]
  rw [FileHeader.buffer_eq] at hr hst ⊢
  simp only [leBytes, List.cons_append, List.nil_append] at hr hst ⊢
  rw [FileHeader.read_of_full memoryStream _ h0 0 _ _ _ _ _ _ _ _ hr, hst,
    intUnion_roundtrip h.version hv1 hv2, shortUnion_roundtrip h.size hs1 hs2,
    shortUnion_roundtrip h.numRecords hn1 hn2]

/-- Claim C11 (file overflow). `File::add` returns `false` exactly when
`(num_records + 1) * 4 > size` or the stream write of the record fails; when
it returns `false`, `header.numRecords` is unchanged; when it returns `true`,
`header.numRecords` has increased by exactly 1; a header whose fields are in
range stays in range, so the increment is not cut to 16 bits. -/
theorem File.add_overflow {σ : Type} (s : EEPROMStream σ) (st : σ) (f : File) (value : Int) :
    ((f.add s st value).1 = false ↔
      ((f.header.numRecords + 1) * 4 > f.header.size ∨
        (s.write st (leBytes 4 value)
          (f.offset + 8 + f.header.numRecords * 4) 4).1 = false)) ∧
    ((f.add s st value).1 = false →
      (f.add s st value).2.1.header.numRecords = f.header.numRecords) ∧
    ((f.add s st value).1 = true →
      (f.add s st value).2.1.header.numRecords = f.header.numRecords + 1) ∧
    (f.header.InRange → (f.add s st value).2.1.header.InRange) := by
  unfold File.add
  rw [intUnion_charValue]
  have e : ((FILE_HEADER_SIZE : Nat) : Int) = 8 := rfl
  rw [e]
  by_cases hfull : f.header.numRecords * 4 + 4 > f.header.size
  · have hfull2 : (f.header.numRecords + 1) * 4 > f.header.size := by omega
    simp [hfull, hfull2]
  · have hfull2 : ¬ (f.header.numRecords + 1) * 4 > f.header.size := by omega
    rw [if_neg hfull]
    by_cases hw : (s.write st (leBytes 4 value)
        (f.offset + 8 + f.header.numRecords * 4) 4).1 = true
    · simp only [hw, if_true, hfull2, false_or]
      refine ⟨by simp, by simp, by simp, ?_⟩
      intro hr
      unfold FileHeader.InRange at hr ⊢
      dsimp only
      omega
    · have hw2 : (s.write st (leBytes 4 value)
          (f.offset + 8 + f.header.numRecords * 4) 4).1 = false := by
        simpa using hw
      simp [hw2]


/-- Claim C11 in the spec's file-full scenario, a file of size 12: with 2
records the value 3.0 (`0x40400000`) is added and `numRecords` becomes 3; with
3 records the value 4.0 (`0x40800000`) is refused and `numRecords` stays 3. -/
theorem File.add_overflow_witness :
    (FileHeader.mk 1 12 2).InRange ∧
    ((File.mk 0 (FileHeader.mk 1 12 2)).add memoryStream testMemory 1077936128).1 = true ∧
    ((File.mk 0 (FileHeader.mk 1 12 2)).add memoryStream testMemory
      1077936128).2.1.header.numRecords = 3 ∧
    ((File.mk 0 (FileHeader.mk 1 12 2)).add memoryStream testMemory
      1077936128).2.1.header.InRange ∧
    ((File.mk 0 (FileHeader.mk 1 12 3)).add memoryStream testMemory 1082130432).1 = false ∧
    ((File.mk 0 (FileHeader.mk 1 12 3)).add memoryStream testMemory
      1082130432).2.1.header.numRecords = 3 :=
  have h2 := File.add_overflow memoryStream testMemory (File.mk 0 (FileHeader.mk 1 12 2))
    1077936128
  have h3 := File.add_overflow memoryStream testMemory (File.mk 0 (FileHeader.mk 1 12 3))
    1082130432
  ⟨by decide, by decide, h2.2.2.1 (by decide), h2.2.2.2 (by decide),
    h3.1.mpr (Or.inl (by decide)), h3.2.1 (h3.1.mpr (Or.inl (by decide)))⟩

/-- Claim C12 (SensorConfig construction). For every ident of `kSensorIdLen`
= 8 bytes and every `databaseSize` and `numValues`, the constructed
`SensorConfig` has `identifier` equal to `ident`, `dbSize = databaseSize` and
`numValues` the argument, which is 1 when the constructor is called with two
arguments; the test's `SensorConfig("DummySE", 1024)` has the identifier
`'D','u','m','m','y','S','E',0`, `dbSize` 1024 and `numValues` 1. -/
theorem SensorConfig.new_fields (ident : List Nat) (databaseSize numValues : Int)
    (pollIntervalMs0 : Int) (hlen : ident.length = kSensorIdLen) :
    kSensorIdLen = 8 ∧
    (SensorConfig.new ident databaseSize numValues pollIntervalMs0).identifier = ident ∧
    (SensorConfig.new ident databaseSize numValues pollIntervalMs0).dbSize = databaseSize ∧
    (SensorConfig.new ident databaseSize numValues pollIntervalMs0).numValues = numValues ∧
    (SensorConfig.newDefault ident databaseSize pollIntervalMs0).identifier = ident ∧
    (SensorConfig.newDefault ident databaseSize pollIntervalMs0).dbSize = databaseSize ∧
    (SensorConfig.newDefault ident databaseSize pollIntervalMs0).numValues = 1 ∧
    (SensorConfig.newDefault [68, 117, 109, 109, 121, 83, 69, 0] 1024
      pollIntervalMs0).identifier = [68, 117, 109, 109, 121, 83, 69, 0] ∧
    (SensorConfig.newDefault [68, 117, 109, 109, 121, 83, 69, 0] 1024
      pollIntervalMs0).dbSize = 1024 ∧
    (SensorConfig.newDefault [68, 117, 109, 109, 121, 83, 69, 0] 1024
      pollIntervalMs0).numValues = 1 := by
  have hid : memcpy (List.replicate kSensorIdLen 0) 0 ident kSensorIdLen = ident := by
    have ht : List.take kSensorIdLen ident = ident := List.take_of_length_le (by omega)
    simp [memcpy, ht]
  exact ⟨rfl, hid, rfl, rfl, hid, rfl, rfl, rfl, rfl, rfl⟩

/-- Claim C12 at an ident with embedded NULs, `'A',0,'B',0,0,0,0,'C'`, with
`databaseSize` 2048 and `numValues` 3, and at the same ident with `numValues`
omitted. -/
theorem SensorConfig.new_fields_witness :
    [65, 0, 66, 0, 0, 0, 0, 67].length = kSensorIdLen ∧
    (SensorConfig.new [65, 0, 66, 0, 0, 0, 0, 67] 2048 3 0).identifier
      = [65, 0, 66, 0, 0, 0, 0, 67] ∧
    (SensorConfig.new [65, 0, 66, 0, 0, 0, 0, 67] 2048 3 0).dbSize = 2048 ∧
    (SensorConfig.new [65, 0, 66, 0, 0, 0, 0, 67] 2048 3 0).numValues = 3 ∧
    (SensorConfig.newDefault [65, 0, 66, 0, 0, 0, 0, 67] 2048 0).numValues = 1 :=
  have h := SensorConfig.new_fields [65, 0, 66, 0, 0, 0, 0, 67] 2048 3 0 (by decide)
  ⟨by decide, h.2.1, h.2.2.1, h.2.2.2.1, h.2.2.2.2.2.2.1⟩

/-- Claim C13 as the constant has it (default database length). `kSensorDbLen`
is 483840: the `7 * 24 * 3600 / 10 = 60480` polls of one week at one poll
every 10 seconds times 8 bytes per poll, which is twice the bytes that 60480
records of 4 bytes take for a sensor with the default `numValues = 1`. -/
theorem kSensorDbLen_week :
    kSensorDbLen = 483840 ∧
    (7 * 24 * 3600 / 10 : Int) = 60480 ∧
    kSensorDbLen = (7 * 24 * 3600 / 10) * 8 ∧
    (∀ (ident : List Nat) (databaseSize pollIntervalMs0 : Int),
      kSensorDbLen = 2 * ((7 * 24 * 3600 / 10) * 4 *
        (SensorConfig.newDefault ident databaseSize pollIntervalMs0).numValues)) := by
  refine ⟨rfl, by decide, by decide, fun _ _ _ => ?_⟩
  show kSensorDbLen = 2 * ((7 * 24 * 3600 / 10) * 4 * 1)
  decide

/-- The default database length is not the size of one week of 4-byte records
polled every 10 seconds with the default `numValues = 1`, which is 241920. -/
theorem kSensorDbLen_not_week_of_records :
    kSensorDbLen ≠ (7 * 24 * 3600 / 10) * 4 *
      (SensorConfig.newDefault [68, 117, 109, 109, 121, 83, 69, 0] kSensorDbLen 10).numValues := by
  decide

/-- Claim C14 (device capacity). On a device of 4 MiB = 4194304 bytes, 8
databases of `kSensorDbLen` bytes with their headers of `FILE_HEADER_SIZE`
bytes fit and 9 do not: `n` of them fit exactly when `n ≤ 8`. -/
theorem kSensorDbLen_device_capacity :
    8 * (kSensorDbLen + FILE_HEADER_SIZE) ≤ 4194304 ∧
    4194304 < 9 * (kSensorDbLen + FILE_HEADER_SIZE) ∧
    kSensorDbLen + FILE_HEADER_SIZE = 483840 + 8 ∧
    (4194304 : Int) = 4 * 1024 * 1024 ∧
    (∀ n : Nat, (n : Int) * (kSensorDbLen + FILE_HEADER_SIZE) ≤ 4194304 ↔ n ≤ 8) := by
  refine ⟨by decide, by decide, by decide, by decide, fun n => ?_⟩
  have e : kSensorDbLen + (FILE_HEADER_SIZE : Int) = 483848 := by decide
  rw [e]
  omega

/-- Claim C16 (narrowing of the size). For every integer `n`, the conversion
to `short` yields `n` if and only if `-32768 ≤ n ≤ 32767`; the result is
always in that range and differs from `n` by a multiple of `2^16`; it is the
value a `ShortUnion` gives back after `n` was stored in it; for
`n = kSensorDbLen = 483840` it is 25088. -/
theorem toShort_narrowing (n : Int) :
    (toShort n = n ↔ -32768 ≤ n ∧ n ≤ 32767) ∧
    (-32768 ≤ toShort n ∧ toShort n ≤ 32767) ∧
    (toShort n - n) % 65536 = 0 ∧
    (∀ u : ShortUnion, (u.setShortValue n).shortValue = toShort n) ∧
    toShort kSensorDbLen = 25088 := by
  refine ⟨?_, ?_, ?_, fun u => ?_, by decide⟩
  · unfold toShort; omega
  · unfold toShort; omega
  · unfold toShort; omega
  · simp only [ShortUnion.setShortValue, ShortUnion.shortValue, toShort, List.getD_cons_zero,
      List.getD_cons_succ]
    split_ifs <;> omega

/-- Claim C15 (decoding then encoding is the identity on bytes). When the
stream returns the 8 bytes `b` in full, `FileHeader::read` returns `true`
with a header whose fields are in range, and `FileHeader::write` on that
header passes exactly `b` to the stream (one journal entry, at the offset of
the write, of length 8). Two buffers that decode to the same header are equal,
and every header with fields in range is what `FileHeader::read` decodes from
the 8 bytes of its own encoding: the encoding is a bijection between 8-byte
strings and triples in range. -/
theorem FileHeader.read_write_identity {σ : Type} (s : EEPROMStream σ) (st : σ)
    (h : FileHeader) (absoluteOffset : Int) (b : List Nat) (hlen : b.length = 8)
    (hbyte : ∀ x ∈ b, x < 256)
    (hread : (s.read st absoluteOffset FILE_HEADER_SIZE).1 = (8, b)) :
    (h.read s st absoluteOffset).1 = true ∧
    (h.read s st absoluteOffset).2.1.InRange ∧
    (∀ (st2 : σ) (journal : List StreamCall) (offset2 : Int),
      ((h.read s st absoluteOffset).2.1.write s.logged (st2, journal) offset2).2.2.2
        = journal ++ [StreamCall.write b offset2 8]) ∧
    (∀ (b2 : List Nat) (st2 : σ) (offset2 : Int), b2.length = 8 → (∀ x ∈ b2, x < 256) →
      (s.read st2 offset2 FILE_HEADER_SIZE).1 = (8, b2) →
      (h.read s st2 offset2).2.1 = (h.read s st absoluteOffset).2.1 → b2 = b) ∧
    (∀ h3 : FileHeader, h3.InRange →
      h3.buffer.length = 8 ∧ (∀ x ∈ h3.buffer, x < 256) ∧
      (h.read memoryStream h3.buffer 0).1 = true ∧
      (h.read memoryStream h3.buffer 0).2.1 = h3) := by
  have hr : (s.read st absoluteOffset 8).1 = (8, b) := hread
  have hb := FileHeader.buffer_read_leSigned s st h absoluteOffset b hlen hbyte hr
  refine ⟨FileHeader.read_full_fst s st h absoluteOffset (by rw [hr]), hb.2, ?_, ?_, ?_⟩
  · intro st2 journal offset2
    rw [FileHeader.write_eq, hb.1]
    simp [EEPROMStream.logged]
  · intro b2 st2 offset2 hlen2 hbyte2 hread2 heq
    have hr2 : (s.read st2 offset2 8).1 = (8, b2) := hread2
    have hb2 := FileHeader.buffer_read_leSigned s st2 h offset2 b2 hlen2 hbyte2 hr2
    rw [← hb2.1, heq, hb.1]
  · intro h3 hrange
    refine ⟨h3.buffer_length, ?_, ?_, ?_⟩
    · rw [FileHeader.buffer_eq]
      simp only [leBytes, List.cons_append, List.nil_append, List.mem_cons, List.mem_singleton,
        List.not_mem_nil, or_false, forall_eq_or_imp, forall_eq]
      refine ⟨?_, ?_, ?_, ?_, ?_, ?_, ?_, ?_⟩ <;> omega
    · rw [FileHeader.read_buffer h3 h hrange]
    · rw [FileHeader.read_buffer h3 h hrange]

/-- Claim C15 at the bytes `FE FF FF FF FF FF 03 80`: they decode to the header
`{-2, -1, -32765}`, which is written back as the same bytes. -/
theorem FileHeader.read_write_identity_witness :
    ((FileHeader.mk 7 7 7).read memoryStream [254, 255, 255, 255, 255, 255, 3, 128] 0).1
      = true ∧
    ((FileHeader.mk 7 7 7).read memoryStream [254, 255, 255, 255, 255, 255, 3, 128] 0).2.1
      = FileHeader.mk (-2) (-1) (-32765) ∧
    (((FileHeader.mk 7 7 7).read memoryStream [254, 255, 255, 255, 255, 255, 3, 128]
      0).2.1.write memoryStream.logged (testMemory, []) 16).2.2.2
      = [StreamCall.write [254, 255, 255, 255, 255, 255, 3, 128] 16 8] :=
  have h := FileHeader.read_write_identity memoryStream [254, 255, 255, 255, 255, 255, 3, 128]
    (FileHeader.mk 7 7 7) 0 [254, 255, 255, 255, 255, 255, 3, 128] (by decide) (by decide)
    (by decide)
  ⟨h.1, by decide, h.2.2.1 testMemory [] 16⟩

/-! ## Registration in the test of the sensor manager -/

/-- An implementation that passes the test case is not due immediately for a
registration tick of at most 1: the test's `update(1)` is then a first update
with `now_ms ≥ tick`, and the test requires the poll count 0 after it. -/
theorem ManagerUnderTest.testCase_not_dueImmediately {μ : Type} (impl : ManagerUnderTest μ)
    (start : μ) (tick : Int) (htest : impl.TestCase start) (htick : tick ≤ 1) :
    ¬ impl.DueImmediately start tick := by
  intro hdue
  have h1 := hdue 1 htick
  rw [htest.2.1] at h1
  exact Nat.not_lt_zero _ h1

end OpenFarm
